import Mathlib

/-!
Verification development for the embedded-nal TLS/address layer.

The Rust sources embedded here are src/addr.rs and src/tls.rs.  Strings are
modelled as lists of characters; the UTF-8 byte length of such a list is
computed with Char.utf8Size, matching the byte-capacity checks of the
heapless buffers used by the code.  Machine integers (u8, u16) are modelled
as Nat with explicit range checks where the code checks them.  Rust panics
(unwrap / expect) are modelled by the RustResult type below; fallible
operations return Except.

The numeric IP-literal parser invoked by addr.rs via
no_std_net::IpAddr::from_str is a third-party dependency (a vendored copy of
the Rust standard library parser, core::net::parser).  It is embedded below
(digitVal through IpFromStr) following that parser: atomic backtracking
readers over the remaining character list, at most 3 decimal digits per IPv4
octet with no leading zero and value at most 255, at most 4 hex digits per
IPv6 group, an optional single double-colon gap, an optional trailing
embedded IPv4 pair, and the requirement that the whole input is consumed.
-/

/-- Outcome of a Rust computation that may panic: either a normal value or a
panic (unwrap on None, unwrap on a parse Err, or a failed expect). -/
inductive RustResult (α : Type) where
  | panicked : RustResult α
  | value : α → RustResult α
deriving DecidableEq

/-- UTF-8 byte length of a character list, as used by the byte-capacity
checks of heapless buffers. -/
def utf8Len (l : List Char) : Nat := (l.map Char.utf8Size).sum

/-- Models char::to_digit(radix): decimal digits and letters, accepted only
below the radix. -/
def digitVal (radix : Nat) (c : Char) : Option Nat :=
  let v : Option Nat :=
    if ('0' ≤ c ∧ c ≤ '9') then some (c.toNat - ('0').toNat)
    else if ('a' ≤ c ∧ c ≤ 'z') then some (c.toNat - ('a').toNat + 10)
    else if ('A' ≤ c ∧ c ≤ 'Z') then some (c.toNat - ('A').toNat + 10)
    else none
  match v with
  | some d => if d < radix then some d else none
  | none => none

/-- Digit-consuming loop of the std parser read_number: consumes digits,
failing on checked-arithmetic overflow past maxVal or on more than maxDigits
digits; returns the value, the digit count and the unconsumed rest. -/
def readDigits (radix maxVal maxDigits : Nat) (acc count : Nat) :
    List Char → Option (Nat × Nat × List Char)
  | [] => some (acc, count, [])
  | c :: rest =>
    match digitVal radix c with
    | none => some (acc, count, c :: rest)
    | some d =>
      if acc * radix + d > maxVal then none
      else if count + 1 > maxDigits then none
      else readDigits radix maxVal maxDigits (acc * radix + d) (count + 1) rest

/-- Models the std parser read_number: at least one digit, at most maxDigits
digits, value at most maxVal, and (unless allowLeadingZeros) no redundant
leading zero. -/
def readNumber (radix maxVal maxDigits : Nat) (allowLeadingZeros : Bool)
    (l : List Char) : Option (Nat × List Char) :=
  match readDigits radix maxVal maxDigits 0 0 l with
  | none => none
  | some (v, count, rest) =>
    if count = 0 then none
    else if allowLeadingZeros = false ∧ l.head? = some '0' ∧ count > 1 then none
    else some (v, rest)

/-- Models the std parser read_given_char: consumes exactly the given
character. -/
def readGivenChar (c : Char) : List Char → Option (Unit × List Char)
  | [] => none
  | d :: rest => if d = c then some ((), rest) else none

/-- Models the std parser read_separator: at group index 0 just the inner
reader, otherwise the separator character followed by the inner reader. -/
def readSeparator (sep : Char) (i : Nat)
    (inner : List Char → Option (α × List Char))
    (l : List Char) : Option (α × List Char) :=
  if i = 0 then inner l
  else
    match readGivenChar sep l with
    | none => none
    | some (_, rest) => inner rest

/-- One IPv4 octet: read_number with radix 10, checked u8 arithmetic
(maximum 255), at most 3 digits, leading zeros rejected. -/
def readOctet : List Char → Option (Nat × List Char) :=
  readNumber 10 255 3 false

/-- Models the std parser read_ipv4_addr: four dot-separated octets. -/
def readIpv4 (l : List Char) : Option ((Nat × Nat × Nat × Nat) × List Char) :=
  match readSeparator '.' 0 readOctet l with
  | none => none
  | some (a, l1) =>
    match readSeparator '.' 1 readOctet l1 with
    | none => none
    | some (b, l2) =>
      match readSeparator '.' 2 readOctet l2 with
      | none => none
      | some (c, l3) =>
        match readSeparator '.' 3 readOctet l3 with
        | none => none
        | some (d, l4) => some ((a, b, c, d), l4)

/-- An embedded trailing IPv4 address contributes two 16-bit groups, built
from its octets in big-endian order. -/
def readIpv4Pair (l : List Char) : Option (List Nat × List Char) :=
  match readIpv4 l with
  | none => none
  | some ((a, b, c, d), rest) => some ([a * 256 + b, c * 256 + d], rest)

/-- Models the std parser read_groups loop: up to n further 16-bit groups
starting at group index i; a trailing embedded IPv4 (allowed only with at
least two slots free) fills two groups and stops with its flag set; a failed
group read stops without consuming.  Returns the groups read, the
embedded-IPv4 flag and the unconsumed rest. -/
def readGroups (n : Nat) (i : Nat) (acc : List Nat) (l : List Char) :
    List Nat × Bool × List Char :=
  match n with
  | 0 => (acc, false, l)
  | Nat.succ m =>
    match (if 0 < m then readSeparator ':' i readIpv4Pair l else none) with
    | some (pair, rest) => (acc ++ pair, true, rest)
    | none =>
      match readSeparator ':' i (readNumber 16 65535 4 true) l with
      | some (g, rest) => readGroups m (i + 1) (acc ++ [g]) rest
      | none => (acc, false, l)

/-- Models the std parser read_ipv6_addr: a head run of groups (success if it
reaches 8; an embedded IPv4 is not allowed before a double colon), then a
double colon, then a tail run of at most 8 - head - 1 groups, with the gap
filled by zero groups. -/
def readIpv6 (l : List Char) : Option (List Nat × List Char) :=
  match readGroups 8 0 [] l with
  | (head, headV4, rest) =>
    if head.length = 8 then some (head, rest)
    else if headV4 then none
    else
      match rest with
      | ':' :: ':' :: rest2 =>
        match readGroups (8 - (head.length + 1)) 0 [] rest2 with
        | (tail, _, rest3) =>
          some (head ++ List.replicate (8 - head.length - tail.length) 0 ++ tail, rest3)
      | _ => none

/-- The numeric address model of no_std_net::IpAddr: four u8 octets or
eight u16 groups. -/
inductive IpAddr where
  | v4 (a b c d : Nat)
  | v6 (groups : List Nat)
deriving DecidableEq

/-- Models read_ip_addr: IPv4 first, IPv6 otherwise. -/
def readIpAddr (l : List Char) : Option (IpAddr × List Char) :=
  match readIpv4 l with
  | some ((a, b, c, d), rest) => some (IpAddr.v4 a b c d, rest)
  | none =>
    match readIpv6 l with
    | some (g, rest) => some (IpAddr.v6 g, rest)
    | none => none

/-- Models no_std_net::IpAddr::from_str (parse_with): the reader must succeed
and consume the entire input. -/
def IpFromStr (l : List Char) : Option IpAddr :=
  match readIpAddr l with
  | some (a, []) => some a
  | _ => none

example : IpFromStr [('2'), ('0'), ('3'), ('.'), ('0'), ('.'), ('1'), ('1'), ('3'), ('.'), ('5')] =
    some (IpAddr.v4 203 0 113 5) := by decide

example : IpFromStr [(':'), (':'), ('1')] = some (IpAddr.v6 [0, 0, 0, 0, 0, 0, 0, 1]) := by decide

example : IpFromStr [('1'), (':'), ('2'), (':'), ('3'), (':'), ('4'), (':'), ('5'), (':'), ('6'), (':'), ('7'), (':'), ('8')] =
    some (IpAddr.v6 [1, 2, 3, 4, 5, 6, 7, 8]) := by decide

example : IpFromStr [('e'), ('x'), ('a'), ('m'), ('p'), ('l'), ('e')] = none := by decide

example : IpFromStr [('2'), ('5'), ('6'), ('.'), ('0'), ('.'), ('0'), ('.'), ('1')] = none := by decide

example : IpFromStr [('0'), ('1'), ('.'), ('1'), ('.'), ('1'), ('.'), ('1')] = none := by decide

example : IpFromStr [(':'), (':'), ('f'), ('f'), ('f'), ('f'), (':'), ('1'), ('.'), ('2'), ('.'), ('3'), ('.'), ('4')] =
    some (IpAddr.v6 [0, 0, 0, 0, 0, 65535, 258, 772]) := by decide

/-!
Embedding of src/addr.rs.
-/

/-- Models heapless String of byte capacity cap built by String::from_str:
succeeds exactly when the UTF-8 byte length fits the capacity. -/
def heaplessString (cap : Nat) (l : List Char) : Option (List Char) :=
  if utf8Len l ≤ cap then some l else none

/-- Models addr.rs AddrParseError, a unit struct. -/
structure AddrParseError where
deriving DecidableEq

/-- Models addr.rs HostAddr: a resolved numeric address and an optional
hostname bounded by 256 bytes (heapless String with capacity U256). -/
structure HostAddr where
  ip : IpAddr
  hostname : Option (List Char)
deriving DecidableEq

/-- Models HostAddr::new. -/
def HostAddr.new (ip : IpAddr) (hostname : Option (List Char)) : HostAddr :=
  { ip := ip, hostname := hostname }

/-- Models HostAddr::ipv4: builds from four octets with no hostname. -/
def HostAddr.ipv4 (a b c d : Nat) : HostAddr :=
  { ip := IpAddr.v4 a b c d, hostname := none }

/-- Models the FromStr impl of HostAddr (addr.rs lines 49-58): parse the
input as a numeric IP literal, mapping a parse failure to AddrParseError;
on success store the literal itself as the hostname through
String::from_str(s).unwrap(), whose failure is a panic. -/
def HostAddrFromStr (l : List Char) : RustResult (Except AddrParseError HostAddr) :=
  match IpFromStr l with
  | none => RustResult.value (Except.error {})
  | some ip =>
    match heaplessString 256 l with
    | none => RustResult.panicked
    | some h => RustResult.value (Except.ok (HostAddr.new ip (some h)))

/-- Models addr.rs HostSocketAddr: a HostAddr plus a u16 port. -/
structure HostSocketAddr where
  addr : HostAddr
  port : Nat
deriving DecidableEq

/-- Models HostSocketAddr::new. -/
def HostSocketAddr.new (addr : HostAddr) (port : Nat) : HostSocketAddr :=
  { addr := addr, port := port }

/-- Models HostSocketAddr::from(addr, port): parses the host portion via
the FromStr impl of HostAddr and pairs it with the port. -/
def HostSocketAddrFrom (addr : List Char) (port : Nat) :
    RustResult (Except AddrParseError HostSocketAddr) :=
  match HostAddrFromStr addr with
  | RustResult.panicked => RustResult.panicked
  | RustResult.value (Except.error e) => RustResult.value (Except.error e)
  | RustResult.value (Except.ok a) => RustResult.value (Except.ok (HostSocketAddr.new a port))

/-!
Embedding of src/tls.rs.
-/

/-- Models tls.rs X509: a byte slice tagged as PEM-encoded or DER-encoded. -/
inductive X509 where
  | pem (bytes : List Nat)
  | der (bytes : List Nat)
deriving DecidableEq

/-- Models X509::as_bytes. -/
def X509.as_bytes : X509 → List Nat
  | X509.pem bytes => bytes
  | X509.der bytes => bytes

/-- Models tls.rs Certificate, a tuple struct wrapping an X509. -/
structure Certificate where
  x : X509
deriving DecidableEq

/-- Models Certificate::as_bytes. -/
def Certificate.as_bytes (c : Certificate) : List Nat := c.x.as_bytes

/-- Models tls.rs PKey in its Private role: key bytes and an optional
password. -/
structure PKeyPrivate where
  key : List Nat
  password : Option (List Nat)
deriving DecidableEq

/-- Models PKey::as_bytes. -/
def PKeyPrivate.as_bytes (k : PKeyPrivate) : List Nat := k.key

/-- Models tls.rs Identity: exactly one certificate paired with one private
key. -/
structure Identity where
  pkey : PKeyPrivate
  cert : X509
deriving DecidableEq

/-- Models Identity::new(cert, private_key). -/
def Identity.new (cert : X509) (private_key : PKeyPrivate) : Identity :=
  { pkey := private_key, cert := cert }

/-- Models tls.rs Protocol, the ordered SSL/TLS protocol version enum. -/
inductive Protocol where
  | Sslv3
  | Tlsv10
  | Tlsv11
  | Tlsv12
deriving DecidableEq

/-- Models the Default impl of Protocol: Tlsv10. -/
def Protocol.default : Protocol := Protocol.Tlsv10

/-- Models nb::Result<(), E>: success, would-block, or a terminal error. -/
inductive NbResult (ε : Type) where
  | done : NbResult ε
  | wouldBlock : NbResult ε
  | err : ε → NbResult ε
deriving DecidableEq

/-- Modelled from the spec: the address-family hint of the DNS capability,
one of IPv4, IPv6 or Either.  The AddrType enum lives in the crate root
(lib.rs), which is not under src. -/
inductive AddrType where
  | IPv4
  | IPv6
  | Either
deriving DecidableEq

/-- Modelled from the spec: a type implementing both the Tls and the Dns
capabilities with a Dns-to-Tls error conversion, as required by the blanket
DnsTls impl (tls.rs lines 148-151).  The Dns trait itself lives in the crate
root (lib.rs), not under src; per the spec its get_host_by_name takes a name
and an address-family hint and returns either a HostAddr or the resolver
error.  Tls::connect (tls.rs lines 175-180) upgrades an open socket to a
secured channel, returning a non-blocking result. -/
structure TlsDnsStack (Socket Connector DnsErr TlsErr : Type) where
  getHostByName : List Char → AddrType → Except DnsErr HostAddr
  tlsConnect : Socket → HostSocketAddr → Connector → NbResult TlsErr
  intoTlsErr : DnsErr → TlsErr

/-- Models str::rsplitn(2, sep) as driven by the two iterator steps in
DnsTls::connect: the first component is the part after the last separator
(the whole string when no separator occurs), the second is the part before
the last separator (absent when no separator occurs). -/
def rsplitn2 (sep : Char) (l : List Char) : List Char × Option (List Char) :=
  let r := l.reverse
  let first := r.takeWhile (fun c => c != sep)
  match r.dropWhile (fun c => c != sep) with
  | [] => (l, none)
  | _ :: pre => (first.reverse, some (pre.reverse))

/-- Digit loop of u16::from_str: no digit-count limit, checked u16
arithmetic. -/
def parseU16Digits (acc : Nat) : List Char → Option Nat
  | [] => some acc
  | c :: rest =>
    match digitVal 10 c with
    | none => none
    | some d =>
      if acc * 10 + d > 65535 then none
      else parseU16Digits (acc * 10 + d) rest

/-- Models str::parse::<u16>: an optional sign followed by at least one
decimal digit, value at most 65535; a minus sign only admits zero. -/
def parseU16 (l : List Char) : Option Nat :=
  match l with
  | [] => none
  | '+' :: t => if t = [] then none else parseU16Digits 0 t
  | '-' :: t =>
    if t = [] then none
    else
      match parseU16Digits 0 t with
      | some 0 => some 0
      | _ => none
  | t => parseU16Digits 0 t

/-- Models the blanket DnsTls::connect impl (tls.rs lines 153-166): two
rsplitn(2) iterator steps bind the text after the last colon and unwrap the
text before it, the latter being parsed as a u16 and unwrapped; then the
first component is resolved through Dns::get_host_by_name with the IPv4
hint, a resolver error being converted into the Tls error, and Tls::connect
is called with the resolved HostSocketAddr. -/
def DnsTlsConnect (st : TlsDnsStack Socket Connector DnsErr TlsErr)
    (socket : Socket) (addr : List Char) (connector : Connector) :
    RustResult (NbResult TlsErr) :=
  match rsplitn2 ':' addr with
  | (hostname, second) =>
    match second with
    | none => RustResult.panicked
    | some portText =>
      match parseU16 portText with
      | none => RustResult.panicked
      | some port =>
        match st.getHostByName hostname AddrType.IPv4 with
        | Except.error e => RustResult.value (NbResult.err (st.intoTlsErr e))
        | Except.ok remote =>
          RustResult.value (st.tlsConnect socket (HostSocketAddr.new remote port) connector)

/-- Models tls.rs TlsConnectorConfig (lines 193-203): the accumulated TLS
configuration plus an opaque context.  The trust-root set is a heapless
Vec with capacity 10, modelled as a list whose growth is guarded by the
capacity check of push. -/
structure TlsConnectorConfig (CTX : Type) where
  context : CTX
  identity : Option Identity
  min_protocol : Protocol
  max_protocol : Option Protocol
  root_certificates : List Certificate
  accept_invalid_certs : Bool
  accept_invalid_hostnames : Bool
  use_sni : Bool

/-- Models the derived Default impl of TlsConnectorConfig: the context
default, no identity, the Protocol default Tlsv10, no maximum protocol, an
empty trust-root Vec, and false for every bool field (the bool Default). -/
def TlsConnectorConfig.mkDefault (ctx : CTX) : TlsConnectorConfig CTX :=
  { context := ctx
    identity := none
    min_protocol := Protocol.default
    max_protocol := none
    root_certificates := []
    accept_invalid_certs := false
    accept_invalid_hostnames := false
    use_sni := false }

/-- Models tls.rs TlsConnectorBuilder, a tuple struct wrapping a
TlsConnectorConfig with unit context. -/
structure TlsConnectorBuilder where
  cfg : TlsConnectorConfig Unit

/-- Models TlsConnectorBuilder::new, which is Self::default(), the derived
Default of the wrapped config. -/
def TlsConnectorBuilder.new : TlsConnectorBuilder :=
  { cfg := TlsConnectorConfig.mkDefault () }

/-- Models the private context method (tls.rs lines 253-264): builds the
config with the given context, taking identity and max_protocol out of the
builder (Option::take mutates the builder to None), cloning the trust
roots and copying the remaining fields.  Returns the config together with
the mutated builder. -/
def TlsConnectorBuilder.context (b : TlsConnectorBuilder) (ctx : CTX) :
    TlsConnectorConfig CTX × TlsConnectorBuilder :=
  ({ context := ctx
     identity := b.cfg.identity
     min_protocol := b.cfg.min_protocol
     max_protocol := b.cfg.max_protocol
     root_certificates := b.cfg.root_certificates
     accept_invalid_certs := b.cfg.accept_invalid_certs
     accept_invalid_hostnames := b.cfg.accept_invalid_hostnames
     use_sni := b.cfg.use_sni },
   { cfg := { b.cfg with identity := none, max_protocol := none } })

/-- Models TlsConnectorBuilder::identity: Option::replace, last write
wins. -/
def TlsConnectorBuilder.identity (b : TlsConnectorBuilder) (id : Identity) :
    TlsConnectorBuilder :=
  { cfg := { b.cfg with identity := some id } }

/-- Models TlsConnectorBuilder::min_protocol_version. -/
def TlsConnectorBuilder.min_protocol_version (b : TlsConnectorBuilder)
    (protocol : Protocol) : TlsConnectorBuilder :=
  { cfg := { b.cfg with min_protocol := protocol } }

/-- Models TlsConnectorBuilder::max_protocol_version: Option::replace. -/
def TlsConnectorBuilder.max_protocol_version (b : TlsConnectorBuilder)
    (protocol : Protocol) : TlsConnectorBuilder :=
  { cfg := { b.cfg with max_protocol := some protocol } }

/-- Models TlsConnectorBuilder::root_certificate (tls.rs lines 302-308):
heapless Vec::push succeeds while the length is below the capacity 10 and
returns Err on a full Vec, which the expect call turns into a panic with
the message about exceeding the capacity. -/
def TlsConnectorBuilder.root_certificate (b : TlsConnectorBuilder)
    (cert : Certificate) : RustResult TlsConnectorBuilder :=
  if b.cfg.root_certificates.length < 10 then
    RustResult.value
      { cfg := { b.cfg with root_certificates := b.cfg.root_certificates ++ [cert] } }
  else
    RustResult.panicked

/-- Models TlsConnectorBuilder::danger_accept_invalid_certs. -/
def TlsConnectorBuilder.danger_accept_invalid_certs (b : TlsConnectorBuilder)
    (flag : Bool) : TlsConnectorBuilder :=
  { cfg := { b.cfg with accept_invalid_certs := flag } }

/-- Models TlsConnectorBuilder::use_sni. -/
def TlsConnectorBuilder.use_sni (b : TlsConnectorBuilder) (flag : Bool) :
    TlsConnectorBuilder :=
  { cfg := { b.cfg with use_sni := flag } }

/-- Models TlsConnectorBuilder::danger_accept_invalid_hostnames. -/
def TlsConnectorBuilder.danger_accept_invalid_hostnames (b : TlsConnectorBuilder)
    (flag : Bool) : TlsConnectorBuilder :=
  { cfg := { b.cfg with accept_invalid_hostnames := flag } }

/-- Models TlsConnectorBuilder::build (tls.rs lines 349-354): the context
method followed by the backend TryFrom conversion, which is external and
therefore a parameter.  Returns the conversion outcome together with the
mutated builder. -/
def TlsConnectorBuilder.build (b : TlsConnectorBuilder) (ctx : CTX)
    (tryFrom : TlsConnectorConfig CTX → Except ε CONN) :
    Except ε CONN × TlsConnectorBuilder :=
  match b.context ctx with
  | (cfg, b2) => (tryFrom cfg, b2)

/-- Repeated root_certificate calls, propagating the panic of a failed
push. -/
def addCertificates (b : TlsConnectorBuilder) :
    List Certificate → RustResult TlsConnectorBuilder
  | [] => RustResult.value b
  | c :: cs =>
    match b.root_certificate c with
    | RustResult.panicked => RustResult.panicked
    | RustResult.value b2 => addCertificates b2 cs

/-!
Concrete fixtures used by the claim theorems and witnesses.
-/

/-- The characters of the literal 203.0.113.5. -/
def litV4 : List Char :=
  [('2'), ('0'), ('3'), ('.'), ('0'), ('.'), ('1'), ('1'), ('3'), ('.'), ('5')]

/-- The characters of the literal example.com. -/
def litHost : List Char :=
  [('e'), ('x'), ('a'), ('m'), ('p'), ('l'), ('e'), ('.'), ('c'), ('o'), ('m')]

/-- The characters of the literal example.com:443. -/
def litHostPort : List Char :=
  litHost ++ [(':'), ('4'), ('4'), ('3')]

/-- The characters of the literal example.invalid:443. -/
def litInvalidPort : List Char :=
  [('e'), ('x'), ('a'), ('m'), ('p'), ('l'), ('e'), ('.'), ('i'), ('n'), ('v'),
   ('a'), ('l'), ('i'), ('d'), (':'), ('4'), ('4'), ('3')]

/-- The characters of the literal 80:example.com. -/
def litPortHost : List Char :=
  [('8'), ('0'), (':')] ++ litHost

/-- A probe stack whose resolver succeeds on every name, recording the
queried name in the hostname of the returned HostAddr, and whose
Tls::connect reports the remote it was handed inside the error, so that
theorems can observe exactly which host and port DnsTls::connect
produced. -/
def probeStack : TlsDnsStack Unit Unit Unit HostSocketAddr :=
  { getHostByName := fun name _ =>
      Except.ok (HostAddr.new (IpAddr.v4 192 0 2 7) (some name))
    tlsConnect := fun _ remote _ => NbResult.err remote
    intoTlsErr := fun _ => HostSocketAddr.new (HostAddr.ipv4 0 0 0 0) 0 }

/-- A stack whose resolver fails on every name. -/
def failingDnsStack : TlsDnsStack Unit Unit Nat Nat :=
  { getHostByName := fun _ _ => Except.error 7
    tlsConnect := fun _ _ _ => NbResult.done
    intoTlsErr := fun e => e + 100 }

/-- A certificate fixture. -/
def certFixture : Certificate := { x := X509.der [1, 2, 3] }

/-- Ten distinct certificate fixtures. -/
def tenCerts : List Certificate :=
  (List.range 10).map (fun i => { x := X509.der [i] })

/-- An identity fixture. -/
def identityFixture : Identity :=
  Identity.new (X509.pem [10, 20]) { key := [30, 40], password := none }

/-- The characters of the literal example.com:99999 (an out-of-range
port under the host-before-port reading of the claim). -/
def litHostBigPort : List Char :=
  litHost ++ [(':'), ('9'), ('9'), ('9'), ('9'), ('9')]

/-- The identity backend conversion: a TryFrom impl that accepts every
configuration unchanged, used to observe the configuration that build hands
to the backend. -/
def idTryFrom (CTX : Type) :
    TlsConnectorConfig CTX → Except Unit (TlsConnectorConfig CTX) :=
  Except.ok


/-!
Lemmas: every character list accepted by the numeric IP parser has a small
UTF-8 byte length, so the heapless 256-byte hostname buffer always fits it.
-/

theorem utf8Len_nil : utf8Len [] = 0 := rfl

theorem utf8Len_cons (c : Char) (l : List Char) :
    utf8Len (c :: l) = c.utf8Size + utf8Len l := by
  simp [utf8Len]

theorem utf8Size_of_lt128 (c : Char) (h : c.toNat < 128) : c.utf8Size = 1 := by
  simp only [Char.utf8Size]
  rw [if_pos]
  rw [UInt32.le_def, BitVec.le_def]
  show c.toNat ≤ 127
  omega

theorem char_le_toNat {a b : Char} (h : a ≤ b) : a.toNat ≤ b.toNat := by
  have h2 := UInt32.le_def.mp h
  rw [BitVec.le_def] at h2
  exact h2

theorem digitVal_utf8 {r : Nat} {c : Char} {d : Nat} (h : digitVal r c = some d) :
    c.utf8Size = 1 := by
  unfold digitVal at h
  apply utf8Size_of_lt128
  split at h
  case isTrue h1 =>
    have h2 := char_le_toNat h1.2
    simp at h2
    omega
  case isFalse =>
    split at h
    case isTrue h1 =>
      have h2 := char_le_toNat h1.2
      simp at h2
      omega
    case isFalse =>
      split at h
      case isTrue h1 =>
        have h2 := char_le_toNat h1.2
        simp at h2
        omega
      case isFalse => simp at h

theorem readDigits_utf8 (r mv m : Nat) :
    ∀ (l : List Char) (acc count v cnt : Nat) (rest : List Char),
    count ≤ m →
    readDigits r mv m acc count l = some (v, cnt, rest) →
    cnt ≤ m ∧ utf8Len l + count ≤ cnt + utf8Len rest := by
  intro l
  induction l with
  | nil =>
    intro acc count v cnt rest hcm heq
    simp only [readDigits, Option.some.injEq, Prod.mk.injEq] at heq
    obtain ⟨h1, h2, h3⟩ := heq
    subst h2
    subst h3
    rw [utf8Len_nil]
    exact ⟨hcm, by omega⟩
  | cons c t ih =>
    intro acc count v cnt rest hcm heq
    simp only [readDigits] at heq
    cases hd : digitVal r c with
    | none =>
      simp only [hd, Option.some.injEq, Prod.mk.injEq] at heq
      obtain ⟨h1, h2, h3⟩ := heq
      subst h2
      subst h3
      exact ⟨hcm, by omega⟩
    | some d =>
      simp only [hd] at heq
      split at heq
      · exact absurd heq (by simp)
      · split at heq
        · exact absurd heq (by simp)
        · rename_i hof hcnt
          have hcm2 : count + 1 ≤ m := by omega
          have hih := ih (acc * r + d) (count + 1) v cnt rest hcm2 heq
          have hsz : c.utf8Size = 1 := digitVal_utf8 hd
          rw [utf8Len_cons, hsz]
          omega

theorem readNumber_utf8 {r mv m : Nat} {az : Bool} {l : List Char} {v : Nat}
    {rest : List Char} (h : readNumber r mv m az l = some (v, rest)) :
    utf8Len l ≤ m + utf8Len rest := by
  unfold readNumber at h
  cases hd : readDigits r mv m 0 0 l with
  | none => simp [hd] at h
  | some t =>
    obtain ⟨v0, cnt, rest0⟩ := t
    simp only [hd] at h
    have hb := readDigits_utf8 r mv m l 0 0 v0 cnt rest0 (Nat.zero_le m) hd
    split at h
    · exact absurd h (by simp)
    · split at h
      · exact absurd h (by simp)
      · simp only [Option.some.injEq, Prod.mk.injEq] at h
        obtain ⟨h1, h2⟩ := h
        subst h2
        omega

theorem readGivenChar_shape {c : Char} {l rest : List Char} {u : Unit}
    (h : readGivenChar c l = some (u, rest)) : l = c :: rest := by
  cases l with
  | nil => exact absurd h (by simp [readGivenChar])
  | cons d t =>
    simp only [readGivenChar] at h
    split at h
    · rename_i hdc
      simp only [Option.some.injEq, Prod.mk.injEq] at h
      rw [hdc, h.2]
    · exact absurd h (by simp)

theorem readSeparator_utf8 {α : Type} {sep : Char} (hs : sep.utf8Size = 1)
    {i : Nat} {inner : List Char → Option (α × List Char)} {B : Nat}
    (hinner : ∀ l v rest, inner l = some (v, rest) → utf8Len l ≤ B + utf8Len rest) :
    ∀ {l : List Char} {v : α} {rest : List Char},
    readSeparator sep i inner l = some (v, rest) → utf8Len l ≤ 1 + B + utf8Len rest := by
  intro l v rest h
  unfold readSeparator at h
  split at h
  · have := hinner l v rest h
    omega
  · cases hg : readGivenChar sep l with
    | none => simp [hg] at h
    | some p =>
      obtain ⟨u, rest1⟩ := p
      simp only [hg] at h
      have hshape := readGivenChar_shape hg
      have hbound := hinner rest1 v rest h
      rw [hshape, utf8Len_cons, hs]
      omega

theorem readOctet_utf8 :
    ∀ (l : List Char) (v : Nat) (rest : List Char),
    readOctet l = some (v, rest) → utf8Len l ≤ 3 + utf8Len rest := by
  intro l v rest h
  exact readNumber_utf8 h

theorem readIpv4_utf8 :
    ∀ (l : List Char) (v : Nat × Nat × Nat × Nat) (rest : List Char),
    readIpv4 l = some (v, rest) → utf8Len l ≤ 16 + utf8Len rest := by
  intro l v rest h
  have hdot : ('.').utf8Size = 1 := by decide
  unfold readIpv4 at h
  cases h1 : readSeparator '.' 0 readOctet l with
  | none => simp [h1] at h
  | some p1 =>
    obtain ⟨a, l1⟩ := p1
    simp only [h1] at h
    cases h2 : readSeparator '.' 1 readOctet l1 with
    | none => simp [h2] at h
    | some p2 =>
      obtain ⟨b, l2⟩ := p2
      simp only [h2] at h
      cases h3 : readSeparator '.' 2 readOctet l2 with
      | none => simp [h3] at h
      | some p3 =>
        obtain ⟨c, l3⟩ := p3
        simp only [h3] at h
        cases h4 : readSeparator '.' 3 readOctet l3 with
        | none => simp [h4] at h
        | some p4 =>
          obtain ⟨d, l4⟩ := p4
          simp only [h4, Option.some.injEq, Prod.mk.injEq] at h
          obtain ⟨hv, hr⟩ := h
          subst hr
          have b1 := readSeparator_utf8 hdot readOctet_utf8 h1
          have b2 := readSeparator_utf8 hdot readOctet_utf8 h2
          have b3 := readSeparator_utf8 hdot readOctet_utf8 h3
          have b4 := readSeparator_utf8 hdot readOctet_utf8 h4
          omega

theorem readIpv4Pair_utf8 :
    ∀ (l : List Char) (v : List Nat) (rest : List Char),
    readIpv4Pair l = some (v, rest) → utf8Len l ≤ 16 + utf8Len rest := by
  intro l v rest h
  unfold readIpv4Pair at h
  cases h1 : readIpv4 l with
  | none => simp [h1] at h
  | some p =>
    obtain ⟨q, rest1⟩ := p
    obtain ⟨a, b, c, d⟩ := q
    simp only [h1, Option.some.injEq, Prod.mk.injEq] at h
    obtain ⟨hv, hr⟩ := h
    rw [← hr]
    exact readIpv4_utf8 l (a, b, c, d) rest1 h1

theorem readGroups_utf8 :
    ∀ (n i : Nat) (acc a2 : List Nat) (f : Bool) (l rest : List Char),
    readGroups n i acc l = (a2, f, rest) → utf8Len l ≤ 5 * n + 12 + utf8Len rest := by
  have hcolon : (':').utf8Size = 1 := by decide
  intro n
  induction n with
  | zero =>
    intro i acc a2 f l rest h
    simp only [readGroups, Prod.mk.injEq] at h
    obtain ⟨h1, h2, h3⟩ := h
    subst h3
    omega
  | succ m ih =>
    intro i acc a2 f l rest h
    simp only [readGroups] at h
    cases hv4 : (if 0 < m then readSeparator ':' i readIpv4Pair l else none) with
    | some p =>
      obtain ⟨pair, rest1⟩ := p
      simp only [hv4, Prod.mk.injEq] at h
      obtain ⟨h1, h2, h3⟩ := h
      subst h3
      split at hv4
      · have := readSeparator_utf8 hcolon readIpv4Pair_utf8 hv4
        omega
      · exact absurd hv4 (by simp)
    | none =>
      simp only [hv4] at h
      cases hg : readSeparator ':' i (readNumber 16 65535 4 true) l with
      | some p =>
        obtain ⟨g, rest1⟩ := p
        simp only [hg] at h
        have hnum : ∀ (l2 : List Char) (v : Nat) (r2 : List Char),
            readNumber 16 65535 4 true l2 = some (v, r2) →
            utf8Len l2 ≤ 4 + utf8Len r2 := by
          intro l2 v r2 hx
          exact readNumber_utf8 hx
        have hstep := readSeparator_utf8 hcolon hnum hg
        have htail := ih (i + 1) (acc ++ [g]) a2 f rest1 rest h
        omega
      | none =>
        simp only [hg, Prod.mk.injEq] at h
        obtain ⟨h1, h2, h3⟩ := h
        subst h3
        omega

theorem readIpv6_utf8 :
    ∀ (l : List Char) (g : List Nat) (rest : List Char),
    readIpv6 l = some (g, rest) → utf8Len l ≤ 101 + utf8Len rest := by
  intro l g rest h
  have hcolon : (':').utf8Size = 1 := by decide
  unfold readIpv6 at h
  rcases hG : readGroups 8 0 [] l with ⟨head, headV4, rest1⟩
  simp only [hG] at h
  have hHead := readGroups_utf8 8 0 [] head headV4 l rest1 hG
  split at h
  · simp only [Option.some.injEq, Prod.mk.injEq] at h
    obtain ⟨h1, h2⟩ := h
    subst h2
    omega
  · split at h
    · exact absurd h (by simp)
    · split at h
      · rename_i rest2
        rcases hT : readGroups (8 - (head.length + 1)) 0 [] rest2 with ⟨tail, f2, rest3⟩
        simp only [hT, Option.some.injEq, Prod.mk.injEq] at h
        obtain ⟨h1, h2⟩ := h
        rw [← h2]
        have hTail := readGroups_utf8 (8 - (head.length + 1)) 0 [] tail f2 rest2 rest3 hT
        have hr1 : utf8Len (':' :: ':' :: rest2) = 2 + utf8Len rest2 := by
          rw [utf8Len_cons, utf8Len_cons, hcolon]
          omega
        have hlim : 5 * (8 - (head.length + 1)) ≤ 35 := by omega
        omega
      · exact absurd h (by simp)

theorem readIpAddr_utf8 :
    ∀ (l : List Char) (a : IpAddr) (rest : List Char),
    readIpAddr l = some (a, rest) → utf8Len l ≤ 101 + utf8Len rest := by
  intro l a rest h
  unfold readIpAddr at h
  cases h4 : readIpv4 l with
  | some p =>
    obtain ⟨q, rest1⟩ := p
    obtain ⟨x1, x2, x3, x4⟩ := q
    simp only [h4, Option.some.injEq, Prod.mk.injEq] at h
    obtain ⟨h1, h2⟩ := h
    have := readIpv4_utf8 l (x1, x2, x3, x4) rest1 h4
    rw [← h2]
    omega
  | none =>
    simp only [h4] at h
    cases h6 : readIpv6 l with
    | some p =>
      obtain ⟨gg, rest1⟩ := p
      simp only [h6, Option.some.injEq, Prod.mk.injEq] at h
      obtain ⟨h1, h2⟩ := h
      rw [← h2]
      exact readIpv6_utf8 l gg rest1 h6
    | none => simp [h6] at h

theorem IpFromStr_utf8 {l : List Char} {a : IpAddr} (h : IpFromStr l = some a) :
    utf8Len l ≤ 256 := by
  unfold IpFromStr at h
  cases hr : readIpAddr l with
  | none => simp [hr] at h
  | some p =>
    obtain ⟨a1, rest⟩ := p
    simp only [hr] at h
    cases rest with
    | nil =>
      have := readIpAddr_utf8 l a1 [] hr
      rw [utf8Len_nil] at this
      omega
    | cons c t => exact absurd h (by simp)

/-!
Helper lemma for the trust-root capacity claim.
-/

theorem addCertificates_ok :
    ∀ (cs : List Certificate) (b : TlsConnectorBuilder),
    b.cfg.root_certificates.length + cs.length ≤ 10 →
    ∃ b2, addCertificates b cs = RustResult.value b2 ∧
      b2.cfg = { b.cfg with root_certificates := b.cfg.root_certificates ++ cs } := by
  intro cs
  induction cs with
  | nil =>
    intro b h
    refine ⟨b, rfl, ?_⟩
    simp
  | cons c cs ih =>
    intro b h
    have hlen : b.cfg.root_certificates.length < 10 := by
      simp at h
      omega
    have hpush : b.root_certificate c = RustResult.value
        { cfg := { b.cfg with
            root_certificates := b.cfg.root_certificates ++ [c] } } := by
      unfold TlsConnectorBuilder.root_certificate
      rw [if_pos hlen]
    simp only [addCertificates, hpush]
    have hlen2 : ({ cfg := { b.cfg with
        root_certificates := b.cfg.root_certificates ++ [c] } } :
        TlsConnectorBuilder).cfg.root_certificates.length + cs.length ≤ 10 := by
      simp at h ⊢
      omega
    obtain ⟨b2, hb2, hcfg⟩ := ih _ hlen2
    refine ⟨b2, hb2, ?_⟩
    rw [hcfg]
    simp

/-!
The claim theorems.
-/

/-- C1: the claim states that DnsTls::connect splits the target on the last
colon, parses the right-hand side as a u16 port and resolves the left-hand
side through the DNS capability.  The code does the opposite: the first
rsplitn item, which is the text after the last colon, is bound as the
hostname, and the text before the colon is parsed as the port.  On the
conventional target example.com:443 the code panics parsing example.com as
a u16; on the reversed target 80:example.com it resolves example.com with
the IPv4 hint and connects to port 80, as observed by a probe stack that
reports the remote it was handed. -/
theorem c1_connect_swaps_host_and_port :
    DnsTlsConnect probeStack () litHostPort () = RustResult.panicked ∧
    DnsTlsConnect probeStack () litPortHost () =
      RustResult.value (NbResult.err (HostSocketAddr.new
        (HostAddr.new (IpAddr.v4 192 0 2 7) (some litHost)) 80)) := by
  constructor
  · decide
  · decide

/-- C2: the claim states that a target whose port is absent or unparsable
yields a typed error.  The code panics instead: on example.com (no colon)
the second rsplitn item is None and is unwrapped, and on example.com:99999
the text before the colon fails to parse as a u16 and the parse result is
unwrapped. -/
theorem c2_connect_panics_on_missing_or_bad_port :
    DnsTlsConnect probeStack () litHost () = RustResult.panicked ∧
    DnsTlsConnect probeStack () litHostBigPort () = RustResult.panicked := by
  constructor
  · decide
  · decide

/-- C3: the claim states that an untouched builder yields use_sni = true.
The configuration comes from the derived Default impl, whose bool default
is false: the untouched builder yields accept_invalid_certs = false and
accept_invalid_hostnames = false as claimed, but use_sni = false,
contradicting the doc comment of the use_sni setter. -/
theorem c3_default_builder_flags :
    ((TlsConnectorBuilder.new).context ()).fst.accept_invalid_certs = false ∧
    ((TlsConnectorBuilder.new).context ()).fst.accept_invalid_hostnames = false ∧
    ((TlsConnectorBuilder.new).context ()).fst.use_sni = false :=
  ⟨rfl, rfl, rfl⟩

/-- C4: the trust-root set is capacity-bounded at 10: starting from a fresh
builder, any 10 certificates are all inserted and remain queryable in
order, and an 11th insertion is the reported expect failure (a panic
carrying the capacity message), never a silent truncation. -/
theorem c4_root_certificate_capacity (cs : List Certificate) (c : Certificate)
    (h : cs.length = 10) :
    ∃ b, addCertificates TlsConnectorBuilder.new cs = RustResult.value b ∧
      b.cfg.root_certificates = cs ∧
      b.root_certificate c = RustResult.panicked := by
  obtain ⟨b, hb, hcfg⟩ := addCertificates_ok cs TlsConnectorBuilder.new (by simp [TlsConnectorBuilder.new, TlsConnectorConfig.mkDefault, h])
  have hroots : b.cfg.root_certificates = cs := by
    rw [hcfg]
    simp [TlsConnectorBuilder.new, TlsConnectorConfig.mkDefault]
  refine ⟨b, hb, hroots, ?_⟩
  unfold TlsConnectorBuilder.root_certificate
  rw [if_neg]
  rw [hroots, h]
  omega

/-- C4 witness: ten concrete certificates fill the builder and the eleventh
insertion panics. -/
theorem c4_root_certificate_capacity_witness :
    tenCerts.length = 10 ∧
    (∃ b, addCertificates TlsConnectorBuilder.new tenCerts = RustResult.value b ∧
      b.cfg.root_certificates = tenCerts ∧
      b.root_certificate certFixture = RustResult.panicked) :=
  ⟨rfl, c4_root_certificate_capacity tenCerts certFixture rfl⟩

/-- C5: for every character list accepted by the numeric IP parser, the
FromStr impl of HostAddr succeeds without panicking, the stored ip is the
parsed numeric address, and the stored hostname is the original literal. -/
theorem c5_from_str_valid_literal (l : List Char) (a : IpAddr)
    (h : IpFromStr l = some a) :
    ∃ ha, HostAddrFromStr l = RustResult.value (Except.ok ha) ∧
      ha.ip = a ∧ ha.hostname = some l := by
  have hlen := IpFromStr_utf8 h
  refine ⟨HostAddr.new a (some l), ?_, rfl, rfl⟩
  simp only [HostAddrFromStr, h, heaplessString, if_pos hlen]

/-- C5 witness: the literal 203.0.113.5 parses to the numeric address
203.0.113.5 and round-trips through HostAddr. -/
theorem c5_from_str_valid_literal_witness :
    IpFromStr litV4 = some (IpAddr.v4 203 0 113 5) ∧
    (∃ ha, HostAddrFromStr litV4 = RustResult.value (Except.ok ha) ∧
      ha.ip = IpAddr.v4 203 0 113 5 ∧ ha.hostname = some litV4) :=
  ⟨by decide, c5_from_str_valid_literal litV4 (IpAddr.v4 203 0 113 5) (by decide)⟩

/-- C6: every non-empty character list rejected by the numeric IP parser
makes the FromStr impl of HostAddr return the typed AddrParseError without
panicking, and HostSocketAddr::from fails the same way for any port. -/
theorem c6_from_str_invalid (l : List Char) (port : Nat) (_hne : l ≠ [])
    (h : IpFromStr l = none) :
    HostAddrFromStr l = RustResult.value (Except.error {}) ∧
    HostSocketAddrFrom l port = RustResult.value (Except.error {}) := by
  constructor
  · simp only [HostAddrFromStr, h]
  · simp only [HostSocketAddrFrom, HostAddrFromStr, h]

/-- C6 witness: the non-empty non-literal example.com fails with the typed
address-parse error through both entry points. -/
theorem c6_from_str_invalid_witness :
    litHost ≠ [] ∧ IpFromStr litHost = none ∧
    (HostAddrFromStr litHost = RustResult.value (Except.error {}) ∧
      HostSocketAddrFrom litHost 443 = RustResult.value (Except.error {})) :=
  ⟨by decide, by decide, c6_from_str_invalid litHost 443 (by decide) (by decide)⟩

/-- C7: setting an identity on the builder and building a configuration
yields a configuration whose identity accessor holds Some identity with the
same certificate bytes and the same private-key bytes. -/
theorem c7_identity_round_trip {CTX : Type} (b : TlsConnectorBuilder)
    (id : Identity) (ctx : CTX) :
    ∃ cfg, (TlsConnectorBuilder.build (TlsConnectorBuilder.identity b id) ctx
        (idTryFrom CTX)).fst = Except.ok cfg ∧
      (∃ id2, cfg.identity = some id2 ∧
        id2.cert.as_bytes = id.cert.as_bytes ∧
        id2.pkey.as_bytes = id.pkey.as_bytes) :=
  ⟨_, rfl, id, rfl, rfl, rfl⟩

/-- C8: the claim states that connecting to example.invalid:443 with a
failing resolver returns the converted DNS error.  The code panics first:
because of the reversed rsplitn binding it tries to parse example.invalid
as the u16 port and unwraps the failed parse, so the resolver is never
consulted. -/
theorem c8_failing_dns_target :
    DnsTlsConnect failingDnsStack () litInvalidPort () = RustResult.panicked := by
  decide

/-- C9: a first build takes the identity and max_protocol out of the
builder while leaving the trust roots, min_protocol and the three flags
unchanged, so a second build on the same builder yields a configuration
with no identity and no maximum protocol. -/
theorem c9_build_consumes_transferable_fields {CTX : Type}
    (b : TlsConnectorBuilder) (ctx : CTX) :
    (TlsConnectorBuilder.build b ctx (idTryFrom CTX)).snd.cfg.identity = none ∧
    (TlsConnectorBuilder.build b ctx (idTryFrom CTX)).snd.cfg.max_protocol = none ∧
    (TlsConnectorBuilder.build b ctx (idTryFrom CTX)).snd.cfg.root_certificates
      = b.cfg.root_certificates ∧
    (TlsConnectorBuilder.build b ctx (idTryFrom CTX)).snd.cfg.min_protocol
      = b.cfg.min_protocol ∧
    (TlsConnectorBuilder.build b ctx (idTryFrom CTX)).snd.cfg.accept_invalid_certs
      = b.cfg.accept_invalid_certs ∧
    (TlsConnectorBuilder.build b ctx (idTryFrom CTX)).snd.cfg.accept_invalid_hostnames
      = b.cfg.accept_invalid_hostnames ∧
    (TlsConnectorBuilder.build b ctx (idTryFrom CTX)).snd.cfg.use_sni
      = b.cfg.use_sni ∧
    (∃ cfg2, (TlsConnectorBuilder.build
        (TlsConnectorBuilder.build b ctx (idTryFrom CTX)).snd ctx
        (idTryFrom CTX)).fst = Except.ok cfg2 ∧
      cfg2.identity = none ∧ cfg2.max_protocol = none) :=
  ⟨rfl, rfl, rfl, rfl, rfl, rfl, rfl, _, rfl, rfl, rfl⟩

/-- C10: the FromStr impl of HostAddr never panics: every character list
the numeric IP parser accepts has UTF-8 byte length at most 256, so the
unwrap guarding the bounded hostname store is unreachable and every input
produces a value (a parsed HostAddr or the typed parse error). -/
theorem c10_from_str_never_panics (l : List Char) :
    (IpFromStr l = none ∨ utf8Len l ≤ 256) ∧
    (∃ r, HostAddrFromStr l = RustResult.value r) := by
  constructor
  · cases h : IpFromStr l with
    | none => exact Or.inl rfl
    | some a => exact Or.inr (IpFromStr_utf8 h)
  · cases h : IpFromStr l with
    | none => exact ⟨Except.error {}, by simp [HostAddrFromStr, h]⟩
    | some a =>
      have hlen := IpFromStr_utf8 h
      exact ⟨Except.ok (HostAddr.new a (some l)),
        by simp only [HostAddrFromStr, h, heaplessString, if_pos hlen]⟩
